import Mathlib

/-!
Shallow embedding of `src/2D_Feature_Tracking/src/matching2D_Student.cpp`.

Conventions used throughout this development:

* C++ `float` / `double` values are modelled as rationals (`ℚ`); floating
  literals such as `0.8`, `0.01`, `0.04` are taken at their decimal value.
* C++ `int` values are modelled as `Int`, image dimensions as `Nat`.
* `std::vector` is modelled as `List`, mutation by explicit state passing.
* Calls into OpenCV (`cornerHarris` + `normalize`, `goodFeaturesToTrack`,
  `DescriptorMatcher::match` / `knnMatch`, `Feature2D::detect` /
  `DescriptorExtractor::compute`) are oracles passed in as function
  parameters: the wrapper code under verification never inspects their
  results beyond what is modelled here.
* A C++ `throw std::invalid_argument` is an `Except.error`; the error also
  carries the contents of the by-reference `matches` vector at the moment of
  the throw, so that "the vector is left unchanged" is expressible.
* GUI rendering (`imshow` etc.) is modelled as the list of window names that
  would be displayed; it is returned alongside the computed data.
-/

/-- A `cv::KeyPoint`: the fields the wrapper code reads or writes. `pt`
coordinates and `size` are rationals; `response` is kept as `Int` because the
only writer (`detKeypointsHarris`) stores an int-truncated value there. -/
structure KeyPoint where
  x : ℚ
  y : ℚ
  size : ℚ
  response : Int
deriving DecidableEq

/-- A `cv::DMatch`: only `distance` is inspected by the wrapper code. -/
structure DMatch where
  queryIdx : Int
  trainIdx : Int
  distance : ℚ
deriving DecidableEq

/-- An 8-bit grayscale `cv::Mat` image; pixel contents are abstract. -/
structure Image where
  rows : Nat
  cols : Nat
  pix : Nat → Nat → Nat

/-- A descriptor matrix (`cv::Mat` of descriptor rows), kept abstract. -/
structure DescMat where
  rows : Nat
  cols : Nat
  val : Nat → Nat → ℚ

/-- The four matcher configurations `matchDescriptors` can build:
brute force with `NORM_HAMMING`, brute force with `NORM_L2`, FLANN with
default (KD-tree) index parameters, FLANN with LSH index parameters. -/
inductive MatcherKind where
  | bfHamming
  | bfL2
  | flannDefault
  | flannLsh
deriving DecidableEq

/-- Oracle for the library matcher: the results of `matcher->match` and of
`matcher->knnMatch(..., 2)` for a given configuration and descriptor pair. -/
structure MatchOracle where
  matchNN : MatcherKind → DescMat → DescMat → List DMatch
  knnMatch2 : MatcherKind → DescMat → DescMat → List (List DMatch)

/-- Matcher configuration, lines 14-49 of `matching2D_Student.cpp`:
`!s.compare(t)` in the source is string equality. Note the two branches test
the descriptor types in different orders, exactly as the source does. -/
def configureMatcher (descriptorType matcherType : String) :
    Except String MatcherKind :=
  if matcherType = "MAT_BF" then
    if descriptorType = "DES_BINARY" then Except.ok MatcherKind.bfHamming
    else if descriptorType = "DES_HOG" then Except.ok MatcherKind.bfL2
    else Except.error ("invalid descriptorType " ++ descriptorType)
  else if matcherType = "MAT_FLANN" then
    if descriptorType = "DES_HOG" then Except.ok MatcherKind.flannDefault
    else if descriptorType = "DES_BINARY" then Except.ok MatcherKind.flannLsh
    else Except.error ("invalid descriptorType " ++ descriptorType)
  else Except.error ("invalid matcherType " ++ matcherType)

/-- One iteration of the `SEL_KNN` ratio-test loop (lines 63-69): push the
best match when the bucket has exactly two entries and the best distance is
below `minDistanceRatio = 0.8` times the second-best distance. -/
def selKnnStep (acc : List DMatch) (kmatch : List DMatch) : List DMatch :=
  match kmatch with
  | [m0, m1] => if m0.distance < 4/5 * m1.distance then acc ++ [m0] else acc
  | _ => acc

/-- The whole `SEL_KNN` ratio-test loop, folded over the knn buckets. -/
def selKnnLoop (matches0 : List DMatch) (kmatches : List (List DMatch)) :
    List DMatch :=
  kmatches.foldl selKnnStep matches0

/-- The function `matchDescriptors` (lines 7-75). `matcher->match` replaces
the contents of `matches`; the `SEL_KNN` branch appends to it. -/
def matchDescriptors (oracle : MatchOracle) (descSource descRef : DescMat)
    (matches0 : List DMatch)
    (descriptorType matcherType selectorType : String) :
    Except (String × List DMatch) (List DMatch) :=
  match configureMatcher descriptorType matcherType with
  | Except.error e => Except.error (e, matches0)
  | Except.ok mk =>
    if selectorType = "SEL_NN" then
      Except.ok (oracle.matchNN mk descSource descRef)
    else if selectorType = "SEL_KNN" then
      Except.ok (selKnnLoop matches0 (oracle.knnMatch2 mk descSource descRef))
    else
      Except.error ("invalid selectorType " ++ selectorType, matches0)

/-- The element the `SEL_KNN` loop contributes for one knn bucket: the best
match exactly when the bucket has two entries passing the ratio test. -/
def knnPick (kmatch : List DMatch) : Option DMatch :=
  match kmatch with
  | [m0, m1] => if m0.distance < 4/5 * m1.distance then some m0 else none
  | _ => none

/-- The `matches` snapshot carried by a thrown `invalid_argument`, `none`
when the call returned normally. -/
def errSnapshot (r : Except (String × List DMatch) (List DMatch)) :
    Option (List DMatch) :=
  match r with
  | Except.error (_, ms) => some ms
  | Except.ok _ => none

/-- The six descriptor extractors `descKeypoints` can build. -/
inductive ExtractorKind where
  | brisk
  | brief
  | orb
  | freak
  | akaze
  | sift
deriving DecidableEq

/-- The extractor-selection if-chain of `descKeypoints` (lines 83-111);
`none` means no branch matched and the `cv::Ptr` stays null. The `BRISK`
branch passes threshold 30, octaves 3, patternScale 1.0 to the library; the
other branches use library defaults. Those arguments only reach the oracle,
so they are not repeated here. -/
def selectExtractor (descriptorType : String) : Option ExtractorKind :=
  if descriptorType = "BRISK" then some ExtractorKind.brisk
  else if descriptorType = "BRIEF" then some ExtractorKind.brief
  else if descriptorType = "ORB" then some ExtractorKind.orb
  else if descriptorType = "FREAK" then some ExtractorKind.freak
  else if descriptorType = "AKAZE" then some ExtractorKind.akaze
  else if descriptorType = "SIFT" then some ExtractorKind.sift
  else none

/-- The function `descKeypoints` (lines 79-118). After the if-chain the code
invokes `extractor->compute(img, keypoints, descriptors)` unconditionally;
when no branch matched, the pointer is null and the call dereferences it.
That crash is modelled as `none`; `some` carries the computed descriptor
matrix (as rows of rationals). -/
def descKeypoints
    (compute : ExtractorKind → Image → List KeyPoint → List (List ℚ))
    (keypoints : List KeyPoint) (img : Image) (descriptorType : String) :
    Option (List (List ℚ)) :=
  match selectExtractor descriptorType with
  | some ek => some (compute ek img keypoints)
  | none => none

/-- The five detectors `detKeypointsModern` can build: `FastFeatureDetector`,
`BRISK`, `ORB`, `AKAZE`, `xfeatures2d::SIFT`. -/
inductive DetectorKind where
  | fast
  | brisk
  | orb
  | akaze
  | sift
deriving DecidableEq

/-- The detector-selection if-chain of `detKeypointsModern` (lines 242-264),
throwing `invalid_argument` when no name matches. -/
def selectDetector (detectorType : String) : Except String DetectorKind :=
  if detectorType = "FAST" then Except.ok DetectorKind.fast
  else if detectorType = "BRISK" then Except.ok DetectorKind.brisk
  else if detectorType = "ORB" then Except.ok DetectorKind.orb
  else if detectorType = "AKAZE" then Except.ok DetectorKind.akaze
  else if detectorType = "SIFT" then Except.ok DetectorKind.sift
  else Except.error ("invalid detectorType " ++ detectorType)

/-- The function `detKeypointsModern` (lines 238-278). `detector->detect`
replaces the contents of the `keypoints` output vector with the oracle
result. The second component lists the windows displayed when `bVis`. -/
def detKeypointsModern (detect : DetectorKind → Image → List KeyPoint)
    (keypoints : List KeyPoint) (img : Image) (detectorType : String)
    (bVis : Bool) : Except String (List KeyPoint × List String) :=
  match selectDetector detectorType with
  | Except.error e => Except.error e
  | Except.ok dk =>
    Except.ok (detect dk img,
      if bVis then [detectorType ++ " keypoint detection results"] else [])

/-- The arguments `detKeypointsShiTomasi` hands to `goodFeaturesToTrack`
(line 135); the mask argument is always the empty `cv::Mat`. -/
structure GFTTCall where
  maxCorners : Int
  qualityLevel : ℚ
  minDistance : ℚ
  blockSize : Int
  useHarrisDetector : Bool
  k : ℚ
deriving DecidableEq

/-- The function `detKeypointsShiTomasi` (lines 121-159). The conversion of
`img.rows * img.cols / max(1.0, minDistance)` to `int` truncates toward
zero, which for the nonnegative values arising here is `Rat.floor`. Each
returned corner is appended to `keypoints` as a keypoint with `pt` the
corner and `size = blockSize`; the other fields keep the `cv::KeyPoint`
defaults (`response = 0`). -/
def detKeypointsShiTomasi (gftt : Image → GFTTCall → List (ℚ × ℚ))
    (keypoints : List KeyPoint) (img : Image) (bVis : Bool) :
    List KeyPoint × List String :=
  let blockSize : Int := 4
  let maxOverlap : ℚ := 0
  let minDistance : ℚ := (1 - maxOverlap) * (blockSize : ℚ)
  let maxCorners : Int :=
    Rat.floor (((img.rows * img.cols : Nat) : ℚ) / max 1 minDistance)
  let qualityLevel : ℚ := 1/100
  let k : ℚ := 1/25
  let corners := gftt img
    ⟨maxCorners, qualityLevel, minDistance, blockSize, false, k⟩
  let ks := corners.foldl
    (fun acc c => acc ++ [⟨c.1, c.2, (blockSize : ℚ), 0⟩]) keypoints
  (ks, if bVis then ["Shi-Tomasi Corner Detector Results"] else [])

/-- The Harris response matrix as seen by the selection loop of
`detKeypointsHarris`: `val j i` is `(int)dst_norm.at<float>(j, i)`, the
int-truncated entry of the min-max-normalized `cornerHarris` output
(lines 171-175 produce it; the library work is behind the oracle that
yields this matrix). -/
structure ResponseMat where
  rows : Nat
  cols : Nat
  val : Nat → Nat → Int

/-- Sign of `cv::KeyPoint::overlap(p, q) > 0.0` for keypoints with positive
`size`: the keypoint circles (radius `size / 2`) intersect with positive
area exactly when the center distance is below the radius sum, i.e.
`4 * dist² < (size p + size q)²`. All keypoints compared by the Harris loop
have `size = 6` and integer coordinates, for which the library
evaluation is exact. -/
def overlapGtZero (p q : KeyPoint) : Bool :=
  decide (4 * ((p.x - q.x) * (p.x - q.x) + (p.y - q.y) * (p.y - q.y)) <
    (p.size + q.size) * (p.size + q.size))

/-- The inner non-maximum-suppression loop of `detKeypointsHarris`
(lines 203-219) for one candidate `nk`: walk the retained keypoints;
on the first overlapping keypoint of strictly smaller response, overwrite
it in place and stop; otherwise remember that an overlap was found and keep
walking; after the walk, append `nk` exactly when no overlap was found. -/
def nmsScan (nk : KeyPoint) : List KeyPoint → Bool → List KeyPoint
  | [], foundOverlap => if foundOverlap then [] else [nk]
  | k :: rest, foundOverlap =>
    if overlapGtZero nk k then
      if nk.response > k.response then nk :: rest
      else k :: nmsScan nk rest true
    else k :: nmsScan nk rest foundOverlap

/-- One pixel of the scan of `detKeypointsHarris` (lines 193-220): a pixel
whose truncated normalized response exceeds `minResponse = 100` becomes a
candidate keypoint at `pt = (i, j)` with `size = 2 * apertureSize = 6` and
is run through non-maximum suppression. -/
def harrisPixel (M : ResponseMat) (j : Nat) (ks : List KeyPoint) (i : Nat) :
    List KeyPoint :=
  let response := M.val j i
  if response > 100 then
    nmsScan ⟨(i : ℚ), (j : ℚ), 6, response⟩ ks false
  else ks

/-- One row of the pixel scan of `detKeypointsHarris` (line 193). -/
def harrisRow (M : ResponseMat) (ks : List KeyPoint) (j : Nat) :
    List KeyPoint :=
  (List.range M.cols).foldl (harrisPixel M j) ks

/-- The function `detKeypointsHarris` (lines 161-235): compute the response
matrix (oracle `harrisNorm`, covering `cornerHarris`, `normalize` and the
int truncation of each read entry), clear the `keypoints` vector when it is
nonempty, scan all pixels row by row, and optionally display two windows
(detector parameters: `blockSize = 2`, `apertureSize = 3`, `k = 0.04` are
consumed by the oracle). -/
def detKeypointsHarris (harrisNorm : Image → ResponseMat)
    (keypoints : List KeyPoint) (img : Image) (bVis : Bool) :
    List KeyPoint × List String :=
  let M := harrisNorm img
  let ks0 := if keypoints.isEmpty then keypoints else []
  let ks := (List.range M.rows).foldl (harrisRow M) ks0
  (ks,
    (if bVis then ["Harris Corner Detector Response Matrix"] else []) ++
      (if bVis then ["Harris corner detection results"] else []))

/-! ## Helper lemmas -/

/-- A fold that only ever appends one mapped element per input equals the
initial accumulator followed by the mapped list. -/
theorem foldl_push_eq_append_map {α : Type} (f : α → KeyPoint) :
    ∀ (l : List α) (acc : List KeyPoint),
      l.foldl (fun a c => a ++ [f c]) acc = acc ++ l.map f := by
  intro l
  induction l with
  | nil => intro acc; simp
  | cons c rest ih =>
    intro acc
    simp only [List.foldl_cons, List.map_cons, ih]
    simp

/-- One ratio-test step appends exactly the contribution of the bucket. -/
theorem selKnnStep_eq_append (acc : List DMatch) (kmatch : List DMatch) :
    selKnnStep acc kmatch = acc ++ (knnPick kmatch).toList := by
  match kmatch with
  | [] => simp [selKnnStep, knnPick]
  | [m0] => simp [selKnnStep, knnPick]
  | [m0, m1] =>
    simp only [selKnnStep, knnPick]
    split
    · simp
    · simp
  | m0 :: m1 :: m2 :: t => simp [selKnnStep, knnPick]

/-- The whole ratio-test loop appends, in order, the head of every knn
bucket that has exactly two entries and passes the distance-ratio test. -/
theorem selKnnLoop_eq_append_filterMap :
    ∀ (kmatches : List (List DMatch)) (matches0 : List DMatch),
      selKnnLoop matches0 kmatches = matches0 ++ kmatches.filterMap knnPick := by
  intro kmatches
  induction kmatches with
  | nil => intro matches0; simp [selKnnLoop]
  | cons km rest ih =>
    intro matches0
    simp only [selKnnLoop, List.foldl_cons] at ih ⊢
    rw [selKnnStep_eq_append, ih, List.filterMap_cons]
    cases h : knnPick km <;> simp

/-- Every element of the list the non-maximum-suppression walk returns is
either the candidate or one of the previously retained keypoints. -/
theorem mem_nmsScan {kp nk : KeyPoint} :
    ∀ (ks : List KeyPoint) (f : Bool), kp ∈ nmsScan nk ks f →
      kp = nk ∨ kp ∈ ks := by
  intro ks
  induction ks with
  | nil =>
    intro f h
    cases f with
    | true => simp [nmsScan] at h
    | false =>
      simp [nmsScan] at h
      exact Or.inl h
  | cons k rest ih =>
    intro f h
    simp only [nmsScan] at h
    split_ifs at h with ho hr
    · rcases List.mem_cons.mp h with h1 | h2
      · exact Or.inl h1
      · exact Or.inr (List.mem_cons_of_mem _ h2)
    · rcases List.mem_cons.mp h with h1 | h2
      · exact Or.inr (h1 ▸ List.mem_cons_self _ _)
      · rcases ih true h2 with h3 | h4
        · exact Or.inl h3
        · exact Or.inr (List.mem_cons_of_mem _ h4)
    · rcases List.mem_cons.mp h with h1 | h2
      · exact Or.inr (h1 ▸ List.mem_cons_self _ _)
      · rcases ih f h2 with h3 | h4
        · exact Or.inl h3
        · exact Or.inr (List.mem_cons_of_mem _ h4)

/-- The shape every keypoint retained by the Harris scan has: a response
above `minResponse = 100` read off some in-bounds pixel of the response
matrix, coordinates that pixel, and `size = 2 * apertureSize = 6`. -/
def HarrisShape (M : ResponseMat) (kp : KeyPoint) : Prop :=
  100 < kp.response ∧ kp.size = 6 ∧
    ∃ i j : Nat, i < M.cols ∧ j < M.rows ∧ kp.x = (i : ℚ) ∧
      kp.y = (j : ℚ) ∧ kp.response = M.val j i

/-- Processing one in-bounds pixel preserves `HarrisShape` for all retained
keypoints. -/
theorem harrisPixel_inv (M : ResponseMat) (j i : Nat) (hj : j < M.rows)
    (hi : i < M.cols) (ks : List KeyPoint)
    (hks : ∀ kp ∈ ks, HarrisShape M kp) :
    ∀ kp ∈ harrisPixel M j ks i, HarrisShape M kp := by
  intro kp hkp
  simp only [harrisPixel] at hkp
  split_ifs at hkp with hresp
  · rcases mem_nmsScan ks false hkp with rfl | hmem
    · exact ⟨hresp, rfl, i, j, hi, hj, rfl, rfl, rfl⟩
    · exact hks kp hmem
  · exact hks kp hkp

/-- Folding one pixel row (restricted to in-bounds columns) preserves
`HarrisShape` for all retained keypoints. -/
theorem harrisRowAux_inv (M : ResponseMat) (j : Nat) (hj : j < M.rows) :
    ∀ (is : List Nat), (∀ i ∈ is, i < M.cols) →
      ∀ ks, (∀ kp ∈ ks, HarrisShape M kp) →
        ∀ kp ∈ is.foldl (harrisPixel M j) ks, HarrisShape M kp := by
  intro is
  induction is with
  | nil =>
    intro _ ks hks kp hkp
    exact hks kp hkp
  | cons i rest ih =>
    intro hbound ks hks kp hkp
    simp only [List.foldl_cons] at hkp
    exact ih (fun x hx => hbound x (List.mem_cons_of_mem _ hx)) _
      (harrisPixel_inv M j i hj (hbound i (List.mem_cons_self _ _)) ks hks)
      kp hkp

/-- Folding any list of in-bounds rows preserves `HarrisShape` for all
retained keypoints. -/
theorem harrisRowsAux_inv (M : ResponseMat) :
    ∀ (js : List Nat), (∀ j ∈ js, j < M.rows) →
      ∀ ks, (∀ kp ∈ ks, HarrisShape M kp) →
        ∀ kp ∈ js.foldl (harrisRow M) ks, HarrisShape M kp := by
  intro js
  induction js with
  | nil =>
    intro _ ks hks kp hkp
    exact hks kp hkp
  | cons j rest ih =>
    intro hbound ks hks kp hkp
    simp only [List.foldl_cons] at hkp
    refine ih (fun x hx => hbound x (List.mem_cons_of_mem _ hx)) _ ?_ kp hkp
    intro kp2 hkp2
    exact harrisRowAux_inv M j (hbound j (List.mem_cons_self _ _))
      (List.range M.cols) (fun x hx => List.mem_range.mp hx) ks hks kp2 hkp2

/-! ## Claims -/

/-- Claim C10: `detKeypointsHarris` clears the keypoints vector before
inserting any detection result, so for every image its final result is
independent of the initial contents of the vector. -/
theorem detKeypointsHarris_independent_of_initial
    (harrisNorm : Image → ResponseMat) (keypoints : List KeyPoint)
    (img : Image) (bVis : Bool) :
    detKeypointsHarris harrisNorm keypoints img bVis =
      detKeypointsHarris harrisNorm [] img bVis := by
  cases keypoints <;> rfl

/-- Claim C8: the `bVis` flag of the three detector wrappers only controls
rendering; the computed keypoint contents are identical with `bVis = true`
and `bVis = false`. -/
theorem bVis_output_neutral (gftt : Image → GFTTCall → List (ℚ × ℚ))
    (harrisNorm : Image → ResponseMat)
    (detect : DetectorKind → Image → List KeyPoint)
    (keypoints : List KeyPoint) (img : Image) (detectorType : String) :
    (detKeypointsShiTomasi gftt keypoints img true).1 =
        (detKeypointsShiTomasi gftt keypoints img false).1 ∧
      (detKeypointsHarris harrisNorm keypoints img true).1 =
        (detKeypointsHarris harrisNorm keypoints img false).1 ∧
      Except.map Prod.fst
          (detKeypointsModern detect keypoints img detectorType true) =
        Except.map Prod.fst
          (detKeypointsModern detect keypoints img detectorType false) := by
  refine ⟨rfl, rfl, ?_⟩
  unfold detKeypointsModern
  cases selectDetector detectorType <;> rfl

/-- Claim C4: `descKeypoints` obtains a valid extractor exactly for the six
supported names; for every other `descriptorType` the pointer stays null and
the unconditional `compute` call dereferences it (modelled as `none`). -/
theorem descKeypoints_extractor_presence
    (compute : ExtractorKind → Image → List KeyPoint → List (List ℚ))
    (keypoints : List KeyPoint) (img : Image) (descriptorType : String) :
    (descKeypoints compute keypoints img descriptorType).isSome =
      ["BRISK", "BRIEF", "ORB", "FREAK", "AKAZE", "SIFT"].contains
        descriptorType := by
  unfold descKeypoints selectExtractor
  split_ifs with h1 h2 h3 h4 h5 h6 <;>
    simp_all [List.contains, List.elem_eq_mem]

/-- Claim C5: `detKeypointsModern` succeeds exactly for the five supported
detector names, throwing `invalid_argument` otherwise, and for each of the
five names it builds the correspondingly named library detector and returns
exactly the result of the `detect` call of that detector. -/
theorem detKeypointsModern_dispatch
    (detect : DetectorKind → Image → List KeyPoint)
    (keypoints : List KeyPoint) (img : Image) (detectorType : String)
    (bVis : Bool) :
    ((detKeypointsModern detect keypoints img detectorType bVis).isOk =
        ["FAST", "BRISK", "ORB", "AKAZE", "SIFT"].contains detectorType) ∧
      detKeypointsModern detect keypoints img "FAST" bVis =
        Except.ok (detect DetectorKind.fast img,
          if bVis then ["FAST keypoint detection results"] else []) ∧
      detKeypointsModern detect keypoints img "BRISK" bVis =
        Except.ok (detect DetectorKind.brisk img,
          if bVis then ["BRISK keypoint detection results"] else []) ∧
      detKeypointsModern detect keypoints img "ORB" bVis =
        Except.ok (detect DetectorKind.orb img,
          if bVis then ["ORB keypoint detection results"] else []) ∧
      detKeypointsModern detect keypoints img "AKAZE" bVis =
        Except.ok (detect DetectorKind.akaze img,
          if bVis then ["AKAZE keypoint detection results"] else []) ∧
      detKeypointsModern detect keypoints img "SIFT" bVis =
        Except.ok (detect DetectorKind.sift img,
          if bVis then ["SIFT keypoint detection results"] else []) := by
  refine ⟨?_, rfl, rfl, rfl, rfl, rfl⟩
  unfold detKeypointsModern selectDetector
  split_ifs with h1 h2 h3 h4 h5 <;>
    simp_all [List.contains, List.elem_eq_mem, Except.isOk, Except.toBool]

/-- Claim C7: `detKeypointsShiTomasi` delegates to `goodFeaturesToTrack`
with `blockSize = 4`, `qualityLevel = 0.01`,
`minDistance = (1.0 - 0.0) * 4 = 4`,
`maxCorners = img.rows * img.cols / max(1.0, minDistance)` truncated to int
(that is, `img.rows * img.cols / 4`), `useHarrisDetector = false` and
`k = 0.04`, and appends to `keypoints` exactly one keypoint per returned
corner, with `pt` that corner and `size = blockSize`. -/
theorem detKeypointsShiTomasi_delegation
    (gftt : Image → GFTTCall → List (ℚ × ℚ)) (keypoints : List KeyPoint)
    (img : Image) (bVis : Bool) :
    (detKeypointsShiTomasi gftt keypoints img bVis).1 =
      keypoints ++
        (gftt img
            ⟨((img.rows * img.cols / 4 : Nat) : Int), (0.01 : ℚ), 4, 4,
              false, (0.04 : ℚ)⟩).map
          (fun c => ⟨c.1, c.2, 4, 0⟩) := by
  have hrec :
      (⟨Rat.floor (((img.rows * img.cols : Nat) : ℚ) /
            max 1 ((1 - (0:ℚ)) * ((4:Int) : ℚ))),
          1/100, (1 - (0:ℚ)) * ((4:Int) : ℚ), 4, false, 1/25⟩ : GFTTCall) =
        ⟨((img.rows * img.cols / 4 : Nat) : Int), (0.01 : ℚ), 4, 4, false,
          (0.04 : ℚ)⟩ := by
    have h1 : max (1:ℚ) ((1 - (0:ℚ)) * ((4:Int) : ℚ)) = ((4:ℕ) : ℚ) := by
      norm_num
    have h2 :
        Rat.floor (((img.rows * img.cols : Nat) : ℚ) /
            max 1 ((1 - (0:ℚ)) * ((4:Int) : ℚ))) =
          ((img.rows * img.cols / 4 : Nat) : Int) := by
      rw [h1]
      show (⌊((img.rows * img.cols : Nat) : ℚ) / ((4:ℕ) : ℚ)⌋ : Int) = _
      rw [Rat.floor_natCast_div_natCast]
      simp
    rw [h2]
    norm_num
  show List.foldl
      (fun acc c => acc ++ [(⟨c.1, c.2, ((4:Int) : ℚ), 0⟩ : KeyPoint)])
      keypoints
      (gftt img
        ⟨Rat.floor (((img.rows * img.cols : Nat) : ℚ) /
            max 1 ((1 - (0:ℚ)) * ((4:Int) : ℚ))),
          1/100, (1 - (0:ℚ)) * ((4:Int) : ℚ), 4, false, 1/25⟩) = _
  rw [hrec]
  rw [foldl_push_eq_append_map
    (fun c : ℚ × ℚ => (⟨c.1, c.2, ((4:Int) : ℚ), 0⟩ : KeyPoint))]
  have hf : (fun c : ℚ × ℚ => (⟨c.1, c.2, ((4:Int) : ℚ), 0⟩ : KeyPoint)) =
      fun c : ℚ × ℚ => (⟨c.1, c.2, 4, 0⟩ : KeyPoint) := by
    funext c
    norm_num
  rw [hf]

/-- Claim C3: `matchDescriptors` throws `invalid_argument` exactly when the
matcher, descriptor or selector type string is not one of the supported
values, and whenever it throws, the `matches` vector is left unchanged
(the snapshot carried by the error equals the input vector). -/
theorem matchDescriptors_throws_iff_invalid
    (oracle : MatchOracle) (descSource descRef : DescMat)
    (matches0 : List DMatch)
    (descriptorType matcherType selectorType : String) :
    errSnapshot
        (matchDescriptors oracle descSource descRef matches0
          descriptorType matcherType selectorType) =
      if (matcherType = "MAT_BF" ∨ matcherType = "MAT_FLANN") ∧
          (descriptorType = "DES_BINARY" ∨ descriptorType = "DES_HOG") ∧
          (selectorType = "SEL_NN" ∨ selectorType = "SEL_KNN") then
        none
      else some matches0 := by
  by_cases hbf : matcherType = "MAT_BF" <;>
    by_cases hfl : matcherType = "MAT_FLANN" <;>
      by_cases hbin : descriptorType = "DES_BINARY" <;>
        by_cases hhog : descriptorType = "DES_HOG" <;>
          by_cases hnn : selectorType = "SEL_NN" <;>
            by_cases hknn : selectorType = "SEL_KNN" <;>
              simp_all [matchDescriptors, configureMatcher, errSnapshot]

/-- Claim C2: in the `SEL_KNN` branch, the appended matches are exactly, and
in order, `kmatch[0]` for those knn buckets `kmatch` that have exactly two
entries with `kmatch[0].distance < 0.8 * kmatch[1].distance` (see `knnPick`),
appended after the prior contents, and nothing else. -/
theorem matchDescriptors_selKnn_ratio_filter (oracle : MatchOracle)
    (descSource descRef : DescMat) (matches0 : List DMatch)
    (descriptorType matcherType : String) (mk : MatcherKind)
    (h : configureMatcher descriptorType matcherType = Except.ok mk) :
    matchDescriptors oracle descSource descRef matches0
        descriptorType matcherType "SEL_KNN" =
      Except.ok (matches0 ++
        (oracle.knnMatch2 mk descSource descRef).filterMap knnPick) := by
  unfold matchDescriptors
  rw [h]
  show (if ("SEL_KNN" : String) = "SEL_NN" then _ else _) = _
  rw [if_neg (by decide), if_pos rfl]
  exact congrArg Except.ok (selKnnLoop_eq_append_filterMap _ _)

/-- Claim C9: `detKeypointsShiTomasi` and the `SEL_KNN` branch of
`matchDescriptors` append to their output vectors without clearing them:
the prior contents survive unchanged and in order at the front. -/
theorem outputs_keep_preexisting_elements
    (gftt : Image → GFTTCall → List (ℚ × ℚ)) (keypoints : List KeyPoint)
    (img : Image) (bVis : Bool) (oracle : MatchOracle)
    (descSource descRef : DescMat) (matches0 : List DMatch)
    (descriptorType matcherType : String) (mk : MatcherKind)
    (h : configureMatcher descriptorType matcherType = Except.ok mk) :
    (∃ tail1, (detKeypointsShiTomasi gftt keypoints img bVis).1 =
        keypoints ++ tail1) ∧
      ∃ tail2, matchDescriptors oracle descSource descRef matches0
          descriptorType matcherType "SEL_KNN" =
        Except.ok (matches0 ++ tail2) := by
  constructor
  · exact ⟨_, foldl_push_eq_append_map
      (fun c : ℚ × ℚ => (⟨c.1, c.2, ((4:Int) : ℚ), 0⟩ : KeyPoint)) _ _⟩
  · refine ⟨(oracle.knnMatch2 mk descSource descRef).filterMap knnPick, ?_⟩
    unfold matchDescriptors
    rw [h]
    show (if ("SEL_KNN" : String) = "SEL_NN" then _ else _) = _
    rw [if_neg (by decide), if_pos rfl]
    exact congrArg Except.ok (selKnnLoop_eq_append_filterMap _ _)

/-- Claim C6: every keypoint produced by `detKeypointsHarris` carries a
truncated normalized response strictly greater than `minResponse = 100`,
has `size = 2 * apertureSize = 6`, and sits at the coordinates `(i, j)` of
some in-bounds pixel of the response matrix whose value equals that
response; pixels whose truncated normalized response is at most 100
therefore yield no keypoint. -/
theorem detKeypointsHarris_keypoint_shape (harrisNorm : Image → ResponseMat)
    (keypoints : List KeyPoint) (img : Image) (bVis : Bool) (kp : KeyPoint)
    (h : kp ∈ (detKeypointsHarris harrisNorm keypoints img bVis).1) :
    100 < kp.response ∧ kp.size = 6 ∧
      ∃ i j : Nat, i < (harrisNorm img).cols ∧ j < (harrisNorm img).rows ∧
        kp.x = (i : ℚ) ∧ kp.y = (j : ℚ) ∧
        kp.response = (harrisNorm img).val j i := by
  have hks0 : ∀ kp2 ∈ (if keypoints.isEmpty then keypoints else []),
      HarrisShape (harrisNorm img) kp2 := by
    cases keypoints <;> simp
  exact harrisRowsAux_inv (harrisNorm img)
    (List.range (harrisNorm img).rows) (fun x hx => List.mem_range.mp hx)
    _ hks0 kp h

/- The arithmetic on `Rat` is `@[irreducible]` in the library, which keeps
the `decide` tactic from evaluating the model on the concrete inputs of the
witnesses below; restoring ordinary transparency of the definitions lets
those closed facts be settled by evaluation. -/
attribute [local semireducible] Rat.ofScientific Rat.mul Rat.inv Rat.add
  Rat.sub

/-- Response matrix for the witness of the Harris keypoint-shape claim:
a single pixel with truncated normalized response 200. -/
def w6Resp : ResponseMat := ⟨1, 1, fun _ _ => 200⟩

/-- Image fed to `detKeypointsHarris` in the Harris shape witness. -/
def w6Img : Image := ⟨1, 1, fun _ _ => 0⟩

/-- Oracle producing `w6Resp` for every image. -/
def w6HarrisNorm : Image → ResponseMat := fun _ => w6Resp

/-- Witness for the Harris keypoint-shape claim at a concrete matrix. -/
theorem detKeypointsHarris_keypoint_shape_witness :
    (⟨0, 0, 6, 200⟩ : KeyPoint) ∈
        (detKeypointsHarris w6HarrisNorm [] w6Img false).1 ∧
      (100 < (⟨0, 0, 6, 200⟩ : KeyPoint).response ∧
        (⟨0, 0, 6, 200⟩ : KeyPoint).size = 6 ∧
        ∃ i j : Nat, i < (w6HarrisNorm w6Img).cols ∧
          j < (w6HarrisNorm w6Img).rows ∧
          (⟨0, 0, 6, 200⟩ : KeyPoint).x = (i : ℚ) ∧
          (⟨0, 0, 6, 200⟩ : KeyPoint).y = (j : ℚ) ∧
          (⟨0, 0, 6, 200⟩ : KeyPoint).response =
            (w6HarrisNorm w6Img).val j i) :=
  ⟨by decide,
    detKeypointsHarris_keypoint_shape w6HarrisNorm [] w6Img false _
      (by decide)⟩

/-- Response matrix refuting the no-overlap claim for `detKeypointsHarris`:
responses 200 at pixel (i=0, j=0), 120 at (i=10, j=0), 150 at (i=5, j=1),
0 everywhere else. The candidate at (5, 1) overlaps both retained
keypoints; it cannot beat the response 200 at (0, 0), but it overwrites the
response-120 keypoint at (10, 0) in place, leaving it overlapping the
keypoint at (0, 0). -/
def cexResp : ResponseMat :=
  ⟨2, 11, fun j i =>
    if j = 0 ∧ i = 0 then 200
    else if j = 0 ∧ i = 10 then 120
    else if j = 1 ∧ i = 5 then 150
    else 0⟩

/-- Image fed to `detKeypointsHarris` in the overlap counterexample. -/
def cexImg : Image := ⟨2, 11, fun _ _ => 0⟩

/-- Oracle producing `cexResp` for every image. -/
def cexHarrisNorm : Image → ResponseMat := fun _ => cexResp

/-- Claim C1 is false of the code: `detKeypointsHarris` can return two
distinct keypoints whose `cv::KeyPoint::overlap` is strictly positive
(their centers are at distance `sqrt 26 < 6`), because the in-place
replacement branch of the suppression loop moves a keypoint next to an
already-retained one. -/
theorem detKeypointsHarris_overlap_counterexample :
    (⟨0, 0, 6, 200⟩ : KeyPoint) ∈
        (detKeypointsHarris cexHarrisNorm [] cexImg false).1 ∧
      (⟨5, 1, 6, 150⟩ : KeyPoint) ∈
        (detKeypointsHarris cexHarrisNorm [] cexImg false).1 ∧
      (⟨0, 0, 6, 200⟩ : KeyPoint) ≠ (⟨5, 1, 6, 150⟩ : KeyPoint) ∧
      overlapGtZero ⟨0, 0, 6, 200⟩ ⟨5, 1, 6, 150⟩ = true := by
  decide

/-- Claim C1 amended: the suppression loop of `detKeypointsHarris` enforces
non-overlap only at insertion time. A candidate that overlaps none of the
currently retained keypoints is appended at the end with the retained list
unchanged (while a candidate that does overlap a retained keypoint is never
appended, and the in-place replacement branch can leave overlapping pairs
in the final output, as the counterexample shows). -/
theorem nmsScan_appends_of_no_overlap (nk : KeyPoint) :
    ∀ (ks : List KeyPoint), (∀ k ∈ ks, overlapGtZero nk k = false) →
      nmsScan nk ks false = ks ++ [nk] := by
  intro ks
  induction ks with
  | nil => intro _; rfl
  | cons k rest ih =>
    intro h
    have hk : overlapGtZero nk k = false := h k (List.mem_cons_self _ _)
    simp only [nmsScan]
    rw [if_neg (by simp [hk])]
    rw [ih (fun x hx => h x (List.mem_cons_of_mem _ hx))]
    rfl

/-- Witness for the amended non-maximum-suppression claim: a candidate at
distance 10 from the single retained keypoint is appended. -/
theorem nmsScan_appends_of_no_overlap_witness :
    overlapGtZero ⟨10, 0, 6, 150⟩ ⟨0, 0, 6, 200⟩ = false ∧
      nmsScan ⟨10, 0, 6, 150⟩ [⟨0, 0, 6, 200⟩] false =
        [⟨0, 0, 6, 200⟩] ++ [⟨10, 0, 6, 150⟩] :=
  ⟨by decide, nmsScan_appends_of_no_overlap _ _ (by decide)⟩

/-- Descriptor matrix used by the matcher witnesses (contents unused). -/
def w2Desc : DescMat := ⟨1, 1, fun _ _ => 0⟩

/-- Matcher oracle for the ratio-filter witness: three knn buckets, of which
only the first has two entries and passes the ratio test (1 < 0.8 * 2). -/
def w2Oracle : MatchOracle :=
  ⟨fun _ _ _ => [],
    fun _ _ _ => [[⟨0, 0, 1⟩, ⟨0, 1, 2⟩], [⟨1, 0, 5⟩, ⟨1, 1, 5⟩], [⟨2, 2, 1⟩]]⟩

/-- Witness for the ratio-filter claim at a concrete oracle: only the head
of the first bucket is appended. -/
theorem matchDescriptors_selKnn_ratio_filter_witness :
    configureMatcher "DES_BINARY" "MAT_BF" = Except.ok MatcherKind.bfHamming ∧
      matchDescriptors w2Oracle w2Desc w2Desc [] "DES_BINARY" "MAT_BF"
          "SEL_KNN" =
        Except.ok [⟨0, 0, 1⟩] :=
  ⟨rfl,
    Eq.trans
      (matchDescriptors_selKnn_ratio_filter w2Oracle w2Desc w2Desc []
        "DES_BINARY" "MAT_BF" MatcherKind.bfHamming rfl)
      (congrArg Except.ok (by decide))⟩

/-- `goodFeaturesToTrack` oracle for the frame-effect witness. -/
def w9Gftt : Image → GFTTCall → List (ℚ × ℚ) := fun _ _ => [(3, 4)]

/-- Image for the frame-effect witness. -/
def w9Img : Image := ⟨2, 2, fun _ _ => 0⟩

/-- Matcher oracle for the frame-effect witness. -/
def w9Oracle : MatchOracle :=
  ⟨fun _ _ _ => [], fun _ _ _ => [[⟨0, 0, 1⟩, ⟨0, 1, 9⟩]]⟩

/-- Witness for the frame-effect claim at concrete oracles: the pre-filled
vectors survive at the front of both outputs. -/
theorem outputs_keep_preexisting_elements_witness :
    configureMatcher "DES_HOG" "MAT_FLANN" =
        Except.ok MatcherKind.flannDefault ∧
      ((∃ tail1, (detKeypointsShiTomasi w9Gftt [⟨9, 9, 1, 7⟩] w9Img false).1 =
          [⟨9, 9, 1, 7⟩] ++ tail1) ∧
        ∃ tail2, matchDescriptors w9Oracle w2Desc w2Desc [⟨3, 3, 9⟩]
            "DES_HOG" "MAT_FLANN" "SEL_KNN" =
          Except.ok ([⟨3, 3, 9⟩] ++ tail2)) :=
  ⟨rfl,
    outputs_keep_preexisting_elements w9Gftt [⟨9, 9, 1, 7⟩] w9Img false
      w9Oracle w2Desc w2Desc [⟨3, 3, 9⟩] "DES_HOG" "MAT_FLANN"
      MatcherKind.flannDefault rfl⟩
